import Mathlib

/-!
# Verification of the user-service JWT session and token-lifecycle manager

Shallow embedding of `src/user-service/internal/utils/jwt/jwt.go` and the
authentication-service layer `auth_services_impl.go` of the
tasiuskenways/Scalable-Ecommerce repository.

Modelling conventions:
* Wall-clock instants are `Nat` milliseconds; Go `time.Duration` config values
  are `Int` milliseconds.  `jwt.NewNumericDate` serializes timestamps at
  second precision (`TimePrecision = time.Second` in golang-jwt/v5), modelled
  by flooring the millisecond instant with `Int.fdiv _ 1000`.
* The JWT wire format (JSON + base64 + HMAC-SHA256) is modelled by an
  injective, executable claims encoding plus a signature that is a function of
  the secret key and the payload; `parseWithClaims` decodes the payload,
  checks the signature and performs golang-jwt/v5's default registered-claim
  validation (exp strictly in the future, nbf and iat not in the future).
* The Redis client is modelled by an explicit association-list state.  A set
  of keys on which any store operation fails (`failKeys`) models transient
  store errors; TTL arguments are recorded by the operations' signatures but
  expiry of entries is not modelled (no time passes between the operations
  that any claim relates).
* Each place the Go code reads the wall clock (`time.Now()`) becomes an
  explicit `Nat` parameter, in source order.
-/

namespace EcomJwt

/-! ## Decimal digits (for the claims wire encoding) -/

/-- The decimal digit characters used when printing a `Nat`. -/
def digitChar : Nat → Char
  | 0 => '0' | 1 => '1' | 2 => '2' | 3 => '3' | 4 => '4'
  | 5 => '5' | 6 => '6' | 7 => '7' | 8 => '8' | _ => '9'

/-- Inverse of `digitChar` on decimal digit characters. -/
def charDigit (c : Char) : Nat :=
  if c = '0' then 0 else if c = '1' then 1 else if c = '2' then 2
  else if c = '3' then 3 else if c = '4' then 4 else if c = '5' then 5
  else if c = '6' then 6 else if c = '7' then 7 else if c = '8' then 8 else 9

/-- Decimal digits of `n`, least significant first, with `fuel` bounding the
recursion depth (structural recursion keeps all evaluation kernel-reducible). -/
def natDigitsAux : Nat → Nat → List Char
  | 0, _ => []
  | _ + 1, 0 => []
  | fuel + 1, n + 1 => digitChar ((n + 1) % 10) :: natDigitsAux fuel ((n + 1) / 10)

/-- Decimal rendering of a natural number, most significant digit first. -/
def natDigits (n : Nat) : List Char :=
  if n = 0 then ['0'] else (natDigitsAux n n).reverse

/-- Parse a maximal run of decimal digits back into a natural number. -/
def digitsToNat (ds : List Char) : Nat :=
  Nat.ofDigits 10 ((ds.map charDigit).reverse)

/-! ## Length-prefixed claims wire encoding

A faithful stand-in for the JSON/base64 serialization of the JWT payload: an
injective encoding of the claims with an executable decoder. -/

/-- `<digits> ':'` — a length/number field terminated by a colon. -/
def encNat (n : Nat) : List Char := natDigits n ++ [':']

/-- Signed variant of `encNat` (JWT numeric dates can be negative instants). -/
def encIntF : Int → List Char
  | Int.ofNat n => encNat n
  | Int.negSucc m => '-' :: encNat (m + 1)

/-- Length-prefixed string field: `<length> ':' <chars>`. -/
def encStrF (s : String) : List Char := encNat s.data.length ++ s.data

/-- Decode a `<digits> ':'` field. -/
def decNat (l : List Char) : Option (Nat × List Char) :=
  let ds := l.takeWhile Char.isDigit
  match l.dropWhile Char.isDigit with
  | ':' :: rest => if ds.isEmpty then none else some (digitsToNat ds, rest)
  | _ => none

/-- Decode a signed numeric field. -/
def decIntF (l : List Char) : Option (Int × List Char) :=
  if l.head? = some '-' then
    (decNat l.tail).map (fun p => (-(p.1 : Int), p.2))
  else
    (decNat l).map (fun p => ((p.1 : Int), p.2))

/-- Decode a length-prefixed string field. -/
def decStrF (l : List Char) : Option (String × List Char) :=
  match decNat l with
  | some (n, rest) =>
      if n ≤ rest.length then some (⟨rest.take n⟩, rest.drop n) else none
  | none => none

/-! ## Token claims (`jwt.Claims` in jwt.go) -/

/-- The claims carried by every issued token: the two custom fields
(`user_id`, `email`) plus the registered claims the code sets
(`exp`, `iat`, `nbf`, `iss`, `sub`).  Timestamps are in seconds, as
serialized by `jwt.NewNumericDate` at second precision. -/
structure Claims where
  userID : String
  email : String
  expiresAt : Int
  issuedAt : Int
  notBefore : Int
  issuer : String
  subject : String
deriving DecidableEq, Repr

/-- Wire encoding of the claims payload. -/
def encClaims (c : Claims) : List Char :=
  encStrF c.userID ++ encStrF c.email ++ encIntF c.expiresAt ++
    encIntF c.issuedAt ++ encIntF c.notBefore ++ encStrF c.issuer ++
    encStrF c.subject

/-- Decode a claims payload, returning the remaining characters. -/
def decClaims (l : List Char) : Option (Claims × List Char) :=
  match decStrF l with
  | none => none
  | some (uid, l1) =>
    match decStrF l1 with
    | none => none
    | some (em, l2) =>
      match decIntF l2 with
      | none => none
      | some (exp, l3) =>
        match decIntF l3 with
        | none => none
        | some (iat, l4) =>
          match decIntF l4 with
          | none => none
          | some (nbf, l5) =>
            match decStrF l5 with
            | none => none
            | some (iss, l6) =>
              match decStrF l6 with
              | none => none
              | some (sub, l7) =>
                some (⟨uid, em, exp, iat, nbf, iss, sub⟩, l7)

/-- Model of HMAC-SHA256 over the payload: a tag determined by the symmetric
secret and the payload (`token.SignedString(tm.secretKey)` in jwt.go). -/
def macSig (secret : String) (payload : List Char) : List Char :=
  '#' :: (secret.data ++ payload)

/-- The complete signed token string: payload, separator, signature. -/
def signedString (secret : String) (c : Claims) : String :=
  ⟨encClaims c ++ '.' :: macSig secret (encClaims c)⟩

/-- Model of `jwt.ParseWithClaims` (golang-jwt/v5) with an HMAC key function:
decode, verify the MAC under the shared symmetric key, then run the default
registered-claims validation — `exp` must be strictly in the future, `nbf`
and `iat` must not be in the future (all at time `now`, in milliseconds,
against second-precision claim timestamps). -/
def parseWithClaims (secret : String) (tokenString : String) (now : Nat) :
    Except String Claims :=
  match decClaims tokenString.data with
  | none => .error "token is malformed"
  | some (c, rest) =>
    if rest ≠ '.' :: macSig secret (encClaims c) then
      .error "signature is invalid"
    else if ¬ ((now : Int) < c.expiresAt * 1000) then
      .error "token is expired"
    else if ¬ (c.notBefore * 1000 ≤ (now : Int)) then
      .error "token is not valid yet"
    else if ¬ (c.issuedAt * 1000 ≤ (now : Int)) then
      .error "token used before issued"
    else
      .ok c

/-! ## Go standard-library helpers used by jwt.go -/

/-- `fmt.Sprintf`: substitute each `%s`/`%d` verb in the format with the next
argument (all arguments in jwt.go are strings).  Substituted text is not
rescanned, exactly as in Go. -/
def goSprintfAux : List Char → List String → List Char
  | [], _ => []
  | '%' :: 's' :: rest, a :: args => a.data ++ goSprintfAux rest args
  | '%' :: 'd' :: rest, a :: args => a.data ++ goSprintfAux rest args
  | c :: rest, args => c :: goSprintfAux rest args

/-- `fmt.Sprintf` on string arguments. -/
def goSprintf (format : String) (args : List String) : String :=
  ⟨goSprintfAux format.data args⟩

/-- `strings.TrimPrefix s pre`: drop `pre` from the front of `s` when present. -/
def trimPrefixStr (s pre : String) : String :=
  if s.data.take pre.data.length = pre.data then ⟨s.data.drop pre.data.length⟩
  else s

/-! ## Redis store model -/

/-- The shared key-value session store.  `data` maps keys to stored values
(most recent write first); `failKeys` are the keys on which any store
operation returns a transient error, modelling an unreachable store. -/
structure RedisState where
  data : List (String × String)
  failKeys : List String
deriving DecidableEq, Repr

/-- The value stored at a key, if any. -/
def RedisState.lookup (st : RedisState) (k : String) : Option String :=
  (st.data.find? (fun p => p.1 = k)).map (fun p => p.2)

/-- `redis.Set` with a TTL (the TTL is accepted but entry expiry is not
modelled; no simulated time passes between related operations). -/
def redisSet (st : RedisState) (k v : String) (ttl : Int) : Except String RedisState :=
  if k ∈ st.failKeys then .error "redis: set failed"
  else .ok { st with data := (k, v) :: st.data.filter (fun p => p.1 ≠ k) }

/-- `redis.Get`: `redis: nil` when the key is absent, a transient error when
the store is unreachable for this key. -/
def redisGet (st : RedisState) (k : String) : Except String String :=
  if k ∈ st.failKeys then .error "redis: get failed"
  else
    match st.lookup k with
    | some v => .ok v
    | none => .error "redis: nil"

/-- `redis.Exists`: the number (0 or 1) of the given keys that exist. -/
def redisExists (st : RedisState) (k : String) : Except String Nat :=
  if k ∈ st.failKeys then .error "redis: exists failed"
  else .ok (if (st.lookup k).isSome then 1 else 0)

/-- `redis.Del` on a list of keys: the number removed and the new state. -/
def redisDel (st : RedisState) (ks : List String) :
    Except String (RedisState × Nat) :=
  if ks.any (fun k => k ∈ st.failKeys) then .error "redis: del failed"
  else
    .ok ({ st with data := st.data.filter (fun p => p.1 ∉ ks) },
         (st.data.filter (fun p => p.1 ∈ ks)).length)

/-! ## Token manager (jwt.go) -/

/-- The Redis key prefix constants of jwt.go.  Note that they contain literal
`%d` / `%s` format verbs: `"refresh:%d"`, `"access:%d"`, `"blacklist:%s"`. -/
def refreshTokenPrefixStr : String := "refresh:%d"

/-- `accessTokenPrefix  = "access:%d"` in jwt.go. -/
def accessTokenPrefixStr : String := "access:%d"

/-- `blacklistPrefix    = "blacklist:%s"` in jwt.go. -/
def blacklistPrefixStr : String := "blacklist:%s"

/-- The token kinds (`AccessToken`/`RefreshToken` constants in jwt.go). -/
inductive TokenType where
  | access
  | refresh
deriving DecidableEq, Repr

/-- The string value of a token-type constant. -/
def TokenType.toStr : TokenType → String
  | .access => "access"
  | .refresh => "refresh"

/-- `config.JWTConfig`: symmetric key and the two configured lifetimes
(`time.Duration`, modelled in milliseconds). -/
structure JWTConfig where
  privateKey : String
  expiration : Int
  refreshExpiration : Int
deriving DecidableEq, Repr

/-- `jwt.TokenManager` (its Redis client is passed explicitly as state). -/
structure TokenManager where
  secretKey : String
  config : JWTConfig
deriving DecidableEq, Repr

/-- `entities.User` (the fields the token/auth code reads). -/
structure User where
  id : String
  email : String
  password : String
deriving DecidableEq, Repr

/-- The access/refresh pair returned by `GenerateTokenPair`. -/
structure TokenPair where
  access : String
  refresh : String
deriving DecidableEq, Repr

/-- `NewTokenManager`: requires a non-empty secret key. -/
def NewTokenManager (cfg : JWTConfig) : Except String TokenManager :=
  if cfg.privateKey = "" then .error "JWT secret key is required"
  else .ok { secretKey := cfg.privateKey, config := cfg }

/-- `generateToken`: build claims with `exp = now + expiration`,
`iat = nbf = now` (serialized at second precision), `iss = "todolistapi"`,
`sub = string(tokenType)`, and sign them with the symmetric key.
`now` is this call's `time.Now()` reading in milliseconds. -/
def TokenManager.generateToken (tm : TokenManager) (user : User)
    (tokenType : TokenType) (expiration : Int) (now : Nat) : String × Claims :=
  let expiresAt : Int := (now : Int) + expiration
  let claims : Claims :=
    { userID := user.id
      email := user.email
      expiresAt := expiresAt.fdiv 1000
      issuedAt := ((now : Int)).fdiv 1000
      notBefore := ((now : Int)).fdiv 1000
      issuer := "todolistapi"
      subject := tokenType.toStr }
  (signedString tm.secretKey claims, claims)

/-- `GenerateTokenPair`: issue the access and refresh tokens, then store the
refresh token under `fmt.Sprintf("%s%s", refreshTokenPrefix, user.ID)` and the
access token under `fmt.Sprintf("%s%s", accessTokenPrefix, user.ID)`, each
with TTL `time.Until(claims.ExpiresAt)` (= the configured lifetime).
`nowA`/`nowR` are the two `time.Now()` readings of the two
`generateToken` calls. -/
def TokenManager.GenerateTokenPair (tm : TokenManager) (st : RedisState)
    (nowA nowR : Nat) (user : User) : Except String (RedisState × TokenPair) :=
  let accessToken := (tm.generateToken user .access tm.config.expiration nowA).1
  let refreshToken := (tm.generateToken user .refresh tm.config.refreshExpiration nowR).1
  match redisSet st (goSprintf "%s%s" [refreshTokenPrefixStr, user.id])
      refreshToken tm.config.refreshExpiration with
  | .error e => .error ("failed to store refresh token: " ++ e)
  | .ok st1 =>
    match redisSet st1 (goSprintf "%s%s" [accessTokenPrefixStr, user.id])
        accessToken tm.config.expiration with
    | .error e => .error ("failed to store access token: " ++ e)
    | .ok st2 => .ok (st2, ⟨accessToken, refreshToken⟩)

/-- `isTokenBlacklisted`: existence check on
`fmt.Sprintf(blacklistPrefix, tokenString)` — the format verb `%s` is
substituted here, so the key read is `"blacklist:" ++ tokenString`. -/
def TokenManager.isTokenBlacklisted (st : RedisState) (tokenString : String) :
    Except String Bool :=
  match redisExists st (goSprintf blacklistPrefixStr [tokenString]) with
  | .ok n => .ok (n = 1)
  | .error e =>
    if e = "redis: nil" then .ok false
    else .error ("failed to check token status: " ++ e)

/-- `verifyRefreshTokenInRedis`: the value stored at
`fmt.Sprintf("%s%s", refreshTokenPrefix, claims.UserID)` must exist and equal
the presented token string exactly. -/
def TokenManager.verifyRefreshTokenInRedis (st : RedisState) (claims : Claims)
    (tokenString : String) : Except String Unit :=
  match redisGet st (goSprintf "%s%s" [refreshTokenPrefixStr, claims.userID]) with
  | .error _ => .error "invalid or expired refresh token"
  | .ok tokenInRedis =>
    if tokenInRedis ≠ tokenString then .error "invalid or expired refresh token"
    else .ok ()

/-- `ValidateToken`: blacklist check, parse + signature + temporal validation,
token-type check, and (for refresh tokens) the stored-value match.
`now` is the validation-time clock reading in milliseconds. -/
def TokenManager.ValidateToken (tm : TokenManager) (st : RedisState)
    (now : Nat) (tokenString : String) (tokenType : TokenType) :
    Except String Claims :=
  match TokenManager.isTokenBlacklisted st tokenString with
  | .error e => .error e
  | .ok true => .error "token has been invalidated"
  | .ok false =>
    match parseWithClaims tm.secretKey tokenString now with
    | .error e => .error ("invalid token: " ++ e)
    | .ok claims =>
      if claims.subject ≠ tokenType.toStr then .error "invalid token type"
      else if tokenType = .refresh then
        match TokenManager.verifyRefreshTokenInRedis st claims tokenString with
        | .error e => .error e
        | .ok _ => .ok claims
      else .ok claims

/-- `Logout`: read `refreshTokenPrefix+userID` (plain Go string concatenation,
so the key is `"refresh:%d" ++ userID`); when present, write a blacklist entry
at `blacklistPrefix+refreshToken` (= `"blacklist:%s" ++ refreshToken`) with
TTL `config.RefreshExpiration` — the error of this `Set` is discarded by the
Go code — then delete the refresh and access keys and return the `Del`
outcome. -/
def TokenManager.Logout (tm : TokenManager) (st : RedisState)
    (userID : String) : Except String RedisState :=
  let afterBlacklist :=
    match redisGet st (refreshTokenPrefixStr ++ userID) with
    | .ok refreshToken =>
      match redisSet st (blacklistPrefixStr ++ refreshToken) "1"
          tm.config.refreshExpiration with
      | .ok st1 => st1
      | .error _ => st
    | .error _ => st
  match redisDel afterBlacklist
      [refreshTokenPrefixStr ++ userID, accessTokenPrefixStr ++ userID] with
  | .ok (st2, _) => .ok st2
  | .error e => .error e

/-- `InvalidateToken`: write a blacklist entry at
`blacklistPrefix+tokenString` (plain concatenation: `"blacklist:%s" ++
tokenString`) with the caller-supplied TTL.  The `tokenType` argument is
accepted and unused, as in the Go code. -/
def TokenManager.InvalidateToken (tm : TokenManager) (st : RedisState)
    (tokenString : String) (tokenType : TokenType) (expiration : Int) :
    Except String RedisState :=
  redisSet st (blacklistPrefixStr ++ tokenString) "1" expiration

/-- `RefreshToken`: validate the presented refresh token, then generate a new
pair for the subject identity taken from its claims.  `nowV` is the
validation clock reading; `nowA`/`nowR` those of the two `generateToken`
calls inside `GenerateTokenPair`. -/
def TokenManager.RefreshTokenOp (tm : TokenManager) (st : RedisState)
    (nowV nowA nowR : Nat) (refreshToken : String) :
    Except String (RedisState × TokenPair) :=
  match tm.ValidateToken st nowV refreshToken .refresh with
  | .error e => .error e
  | .ok claims =>
    let user : User := { id := claims.userID, email := claims.email, password := "" }
    tm.GenerateTokenPair st nowA nowR user

/-! ## Authentication service (auth_services_impl.go)

The user directory (`userRepo`) is modelled as a list of users; its
`GetByEmail` returns `(nil, nil)` on a lookup miss, exactly as the repository
implementation does for `gorm.ErrRecordNotFound`.  Password hashing is
bcrypt; its comparison is modelled by an explicit predicate `check pw hash`
(success of `bcrypt.CompareHashAndPassword`). -/

/-- `dto.LoginRequest`. -/
structure LoginRequest where
  email : String
  password : String
deriving DecidableEq, Repr

/-- `dto.AuthResponse` (the token fields the service fills in). -/
structure AuthResponse where
  accessToken : String
  refreshToken : String
  tokenType : String
  expiresIn : Int
deriving DecidableEq, Repr

/-- `userRepository.GetByEmail`: first user with the given email, `none` on a
record-not-found (the Go method returns `(nil, nil)` in that case). -/
def getByEmail (users : List User) (email : String) : Option User :=
  users.find? (fun u => u.email = email)

/-- Outcome of `authService.Login`.  `nilDeref` is the Go runtime panic that
occurs when the code dereferences the `nil` user returned on a lookup miss
(`log.Println("user password", user.Password)`). -/
inductive LoginOutcome where
  | ok (st : RedisState) (resp : AuthResponse)
  | err (msg : String)
  | nilDeref
deriving DecidableEq, Repr

/-- `authService.generateAuthResponse`: delegate to `GenerateTokenPair` and
wrap the pair, with `ExpiresIn = jwtConfig.Expiration.Milliseconds()`. -/
def AuthService.generateAuthResponse (tm : TokenManager) (st : RedisState)
    (nowA nowR : Nat) (user : User) : Except String (RedisState × AuthResponse) :=
  match tm.GenerateTokenPair st nowA nowR user with
  | .error e => .error e
  | .ok (st1, tokens) =>
    .ok (st1, { accessToken := tokens.access, refreshToken := tokens.refresh,
                tokenType := "Bearer", expiresIn := tm.config.expiration })

/-- `authService.Login`: look the user up by email; on a miss the Go code
dereferences the nil user (runtime panic).  Otherwise compare the password
with the stored bcrypt hash and answer `"invalid password"` on mismatch, or
issue a pair. -/
def AuthService.Login (check : String → String → Bool) (users : List User)
    (tm : TokenManager) (st : RedisState) (nowA nowR : Nat)
    (req : LoginRequest) : LoginOutcome :=
  match getByEmail users req.email with
  | none => .nilDeref
  | some user =>
    if check req.password user.password then
      match AuthService.generateAuthResponse tm st nowA nowR user with
      | .error e => .err e
      | .ok (st1, resp) => .ok st1 resp
    else .err "invalid password"

/-- `authService.RefreshToken`: reads the token from the `Authorization`
header (`ctx.Get("Authorization")`), not from its `refreshToken` argument;
errors when the header is empty, strips a `"Bearer "` prefix, and delegates
to the token manager's refresh.  `ExpiresIn` is the hard-coded 15 minutes. -/
def AuthService.RefreshToken (tm : TokenManager) (st : RedisState)
    (nowV nowA nowR : Nat) (authHeader : String) (refreshToken : String) :
    Except String (RedisState × AuthResponse) :=
  let token := authHeader
  if token = "" then .error "Refresh token is required"
  else
    let token := trimPrefixStr token "Bearer "
    match tm.RefreshTokenOp st nowV nowA nowR token with
    | .error e => .error e
    | .ok (st1, tokens) =>
      .ok (st1, { accessToken := tokens.access, refreshToken := tokens.refresh,
                  tokenType := "Bearer", expiresIn := 15 * 60 })

/-- Whether an `Except` value is a success. -/
def exceptOk {ε α : Type} : Except ε α → Bool
  | .ok _ => true
  | .error _ => false

/-! ## Concrete test fixture

A small token manager, subject and store states used to evaluate the
operations at explicit inputs. -/

/-- A token manager with secret "k", access lifetime 1s, refresh lifetime 2s. -/
def tmEx : TokenManager :=
  { secretKey := "k",
    config := { privateKey := "k", expiration := 1000, refreshExpiration := 2000 } }

/-- A concrete subject. -/
def userEx : User := { id := "u1", email := "e@x", password := "pw" }

/-- The empty store. -/
def stEmpty : RedisState := { data := [], failKeys := [] }

/-- The access token issued for `userEx` at time 0. -/
def tokEx : String := (tmEx.generateToken userEx .access tmEx.config.expiration 0).1

/-- The claims of `tokEx`. -/
def claimsEx : Claims := (tmEx.generateToken userEx .access tmEx.config.expiration 0).2

/-- The store after `InvalidateToken` wrote its revocation entry for `tokEx`. -/
def stInvEx : RedisState :=
  { data := [(blacklistPrefixStr ++ tokEx, "1")], failKeys := [] }

/-- The access token issued for `userEx` at time 1 ms. -/
def accessTokEx : String :=
  (tmEx.generateToken userEx .access tmEx.config.expiration 1).1

/-- The refresh token issued for `userEx` at time 2 ms. -/
def refreshTokEx : String :=
  (tmEx.generateToken userEx .refresh tmEx.config.refreshExpiration 2).1

/-- The store after `GenerateTokenPair` for `userEx` at times 1 / 2 ms. -/
def stPairEx : RedisState :=
  { data := [(accessTokenPrefixStr ++ userEx.id, accessTokEx),
             (refreshTokenPrefixStr ++ userEx.id, refreshTokEx)],
    failKeys := [] }

/-- The pair issued for `userEx` at times 1 / 2 ms. -/
def pairEx : TokenPair := ⟨accessTokEx, refreshTokEx⟩

/-- The access token issued for `userEx` at time 1007 ms (second 1). -/
def accessTokB : String :=
  (tmEx.generateToken userEx .access tmEx.config.expiration 1007).1

/-- The refresh token issued for `userEx` at time 2009 ms (second 2). -/
def refreshTokB : String :=
  (tmEx.generateToken userEx .refresh tmEx.config.refreshExpiration 2009).1

/-- The pair issued for `userEx` at times 1007 / 2009 ms. -/
def pairB : TokenPair := ⟨accessTokB, refreshTokB⟩

/-- The store after refreshing `refreshTokEx` with token generation at times
1007 / 2009 ms. -/
def stPairB : RedisState :=
  { data := [(accessTokenPrefixStr ++ userEx.id, accessTokB),
             (refreshTokenPrefixStr ++ userEx.id, refreshTokB)],
    failKeys := [] }

/-- A store holding `userEx`'s refresh token in which the blacklist key for
that token is unreachable (any write to it fails). -/
def stC5 : RedisState :=
  { data := [(refreshTokenPrefixStr ++ userEx.id, refreshTokEx)],
    failKeys := [blacklistPrefixStr ++ refreshTokEx] }

/-- The store left by `Logout` from `stPairEx`. -/
def stLoggedOutEx : RedisState :=
  { data := [(blacklistPrefixStr ++ refreshTokEx, "1")], failKeys := [] }

/-- A password check for the fixture: the "hash" is the password itself. -/
def checkEx : String → String → Bool := fun p h => p = h

/-- A login request whose email matches `userEx` but whose password does not. -/
def reqEx : LoginRequest := { email := "e@x", password := "wrong" }

/-! ## Codec correctness: the decoder inverts the encoder -/

theorem str_data_append (a b : String) : (a ++ b).data = a.data ++ b.data := rfl

theorem charDigit_digitChar {d : Nat} (hd : d < 10) :
    charDigit (digitChar d) = d := by
  interval_cases d <;> decide

theorem isDigit_digitChar {d : Nat} (hd : d < 10) :
    (digitChar d).isDigit = true := by
  interval_cases d <;> decide

theorem mem_natDigitsAux_isDigit :
    ∀ (fuel n : Nat) {c : Char}, c ∈ natDigitsAux fuel n → c.isDigit = true := by
  intro fuel
  induction fuel with
  | zero =>
    intro n c hc
    simp [natDigitsAux] at hc
  | succ f ih =>
    intro n c hc
    match n with
    | 0 => simp [natDigitsAux] at hc
    | m + 1 =>
      rcases List.mem_cons.mp hc with h | h
      · subst h
        exact isDigit_digitChar (Nat.mod_lt _ (by norm_num))
      · exact ih _ h

theorem mem_natDigits_isDigit {n : Nat} {c : Char} (hc : c ∈ natDigits n) :
    c.isDigit = true := by
  unfold natDigits at hc
  split at hc
  · rw [List.mem_singleton] at hc
    subst hc
    decide
  · exact mem_natDigitsAux_isDigit n n (List.mem_reverse.mp hc)

theorem natDigits_ne_nil (n : Nat) : natDigits n ≠ [] := by
  unfold natDigits
  split
  · simp
  · next h =>
    match n, h with
    | m + 1, _ =>
      show (digitChar ((m + 1) % 10) :: natDigitsAux m ((m + 1) / 10)).reverse ≠ []
      simp

theorem ofDigits_natDigitsAux :
    ∀ (fuel n : Nat), n ≤ fuel →
      Nat.ofDigits 10 ((natDigitsAux fuel n).map charDigit) = n := by
  intro fuel
  induction fuel with
  | zero =>
    intro n hn
    match n, hn with
    | 0, _ => simp [natDigitsAux, Nat.ofDigits]
  | succ f ih =>
    intro n hn
    match n with
    | 0 => simp [natDigitsAux, Nat.ofDigits]
    | m + 1 =>
      show Nat.ofDigits 10
        ((digitChar ((m + 1) % 10) :: natDigitsAux f ((m + 1) / 10)).map charDigit)
        = m + 1
      rw [List.map_cons, Nat.ofDigits_cons,
        charDigit_digitChar (Nat.mod_lt _ (by norm_num)), ih _ (by omega)]
      omega

theorem digitsToNat_natDigits (n : Nat) : digitsToNat (natDigits n) = n := by
  unfold digitsToNat natDigits
  split
  next h =>
    subst h
    decide
  next h =>
    rw [List.map_reverse, List.reverse_reverse]
    exact ofDigits_natDigitsAux n n le_rfl

theorem takeWhile_append_stop {p : Char → Bool} {l r : List Char} {x : Char}
    (hl : ∀ c ∈ l, p c = true) (hx : p x = false) :
    (l ++ x :: r).takeWhile p = l ∧ (l ++ x :: r).dropWhile p = x :: r := by
  induction l with
  | nil =>
    constructor
    · simp [List.takeWhile_cons, hx]
    · simp [List.dropWhile_cons, hx]
  | cons a as ih =>
    have ha : p a = true := hl a (by simp)
    obtain ⟨ih1, ih2⟩ := ih (fun c hc => hl c (by simp [hc]))
    constructor
    · simpa [List.takeWhile_cons, ha] using ih1
    · simpa [List.dropWhile_cons, ha] using ih2

theorem decNat_encNat (n : Nat) (r : List Char) :
    decNat (encNat n ++ r) = some (n, r) := by
  have hcolon : (':' : Char).isDigit = false := by decide
  obtain ⟨htake, hdrop⟩ :=
    takeWhile_append_stop (p := Char.isDigit) (l := natDigits n) (r := r)
      (x := ':') (fun c hc => mem_natDigits_isDigit hc) hcolon
  unfold decNat encNat
  rw [List.append_assoc, List.singleton_append, htake, hdrop]
  simp only [List.isEmpty_iff]
  rw [if_neg (natDigits_ne_nil n), digitsToNat_natDigits]

theorem natDigits_head_not_minus (n : Nat) :
    (natDigits n).head? ≠ some '-' := by
  rcases hd : natDigits n with _ | ⟨c, cs⟩
  · exact absurd hd (natDigits_ne_nil n)
  · have : c.isDigit = true := mem_natDigits_isDigit (hd ▸ List.mem_cons_self c cs)
    simp only [List.head?_cons, ne_eq, Option.some.injEq]
    intro h
    rw [h] at this
    exact absurd this (by decide)

theorem decIntF_encIntF (i : Int) (r : List Char) :
    decIntF (encIntF i ++ r) = some (i, r) := by
  cases i with
  | ofNat n =>
    unfold decIntF encIntF
    have hhead : (encNat n ++ r).head? ≠ some '-' := by
      unfold encNat
      rw [List.append_assoc, List.head?_append]
      rcases hd : natDigits n with _ | ⟨c, cs⟩
      · exact absurd hd (natDigits_ne_nil n)
      · have := natDigits_head_not_minus n
        rw [hd] at this
        simpa using this
    rw [if_neg (by simpa using hhead), decNat_encNat]
    rfl
  | negSucc m =>
    unfold decIntF encIntF
    have : ('-' :: encNat (m + 1)) ++ r = '-' :: (encNat (m + 1) ++ r) := rfl
    rw [this]
    simp only [List.head?_cons, Option.some.injEq, if_true, List.tail_cons,
      decNat_encNat, Option.map_some, if_pos]
    norm_num [Int.negSucc_eq]

theorem decStrF_encStrF (s : String) (r : List Char) :
    decStrF (encStrF s ++ r) = some (s, r) := by
  unfold decStrF encStrF
  rw [List.append_assoc]
  have hle : s.data.length ≤ (s.data ++ r).length := by simp
  simp only [decNat_encNat, hle, if_true, List.take_left, List.drop_left]

theorem decClaims_encClaims (c : Claims) (r : List Char) :
    decClaims (encClaims c ++ r) = some (c, r) := by
  unfold decClaims encClaims
  simp only [List.append_assoc, decStrF_encStrF, decIntF_encIntF]

/-! ## Parsing a well-formed signed token -/

theorem parse_signedString {secret : String} {c : Claims} {now : Nat}
    (hexp : (now : Int) < c.expiresAt * 1000)
    (hnbf : c.notBefore * 1000 ≤ (now : Int))
    (hiat : c.issuedAt * 1000 ≤ (now : Int)) :
    parseWithClaims secret (signedString secret c) now = .ok c := by
  unfold parseWithClaims signedString
  have hdata : (⟨encClaims c ++ '.' :: macSig secret (encClaims c)⟩ : String).data
      = encClaims c ++ '.' :: macSig secret (encClaims c) := rfl
  simp only [hdata, decClaims_encClaims]
  rw [if_neg (by simp), if_neg (by omega), if_neg (by omega), if_neg (by omega)]

theorem parse_signedString_expired {secret : String} {c : Claims} {now : Nat}
    (hexp : ¬ ((now : Int) < c.expiresAt * 1000)) :
    parseWithClaims secret (signedString secret c) now = .error "token is expired" := by
  unfold parseWithClaims signedString
  have hdata : (⟨encClaims c ++ '.' :: macSig secret (encClaims c)⟩ : String).data
      = encClaims c ++ '.' :: macSig secret (encClaims c) := rfl
  simp only [hdata, decClaims_encClaims]
  rw [if_neg (by simp), if_pos hexp]

/-! ## Key-format facts -/

theorem goSprintf_ss (a b : String) : goSprintf "%s%s" [a, b] = a ++ b := by
  show (⟨goSprintfAux "%s%s".data [a, b]⟩ : String) = ⟨a.data ++ b.data⟩
  have hfmt : "%s%s".data = '%' :: 's' :: '%' :: 's' :: [] := rfl
  rw [hfmt]
  simp [goSprintfAux]

theorem goSprintf_blacklist (t : String) :
    goSprintf blacklistPrefixStr [t] = "blacklist:" ++ t := by
  show (⟨goSprintfAux blacklistPrefixStr.data [t]⟩ : String)
      = ⟨"blacklist:".data ++ t.data⟩
  have hfmt : blacklistPrefixStr.data
      = 'b' :: 'l' :: 'a' :: 'c' :: 'k' :: 'l' :: 'i' :: 's' :: 't' :: ':' :: '%' :: 's' :: [] := rfl
  rw [hfmt]
  simp [goSprintfAux]

theorem append_ne_of_head_ne {a b : Char} {p q : String} (x y : String)
    (hp : p.data.head? = some a) (hq : q.data.head? = some b) (hab : a ≠ b) :
    p ++ x ≠ q ++ y := by
  intro h
  have hd := congrArg (fun s => s.data.head?) h
  simp only [str_data_append, List.head?_append, hp, hq, Option.or_some] at hd
  exact hab (by simpa using hd)

theorem access_ne_refresh_key (x y : String) :
    accessTokenPrefixStr ++ x ≠ refreshTokenPrefixStr ++ y :=
  append_ne_of_head_ne x y rfl rfl (by decide)

theorem blacklist_ne_refresh_key (x y : String) :
    "blacklist:" ++ x ≠ refreshTokenPrefixStr ++ y :=
  append_ne_of_head_ne x y rfl rfl (by decide)

theorem blacklist_ne_access_key (x y : String) :
    "blacklist:" ++ x ≠ accessTokenPrefixStr ++ y :=
  append_ne_of_head_ne x y rfl rfl (by decide)

/-! ## Store-operation facts -/

theorem find?_filter_of_imp {α} (p q : α → Bool) (l : List α)
    (h : ∀ x, p x = true → q x = true) : (l.filter q).find? p = l.find? p := by
  induction l with
  | nil => rfl
  | cons a as ih =>
    by_cases hp : p a = true
    · rw [List.filter_cons, if_pos (h a hp), List.find?_cons_of_pos _ hp,
        List.find?_cons_of_pos _ hp]
    · by_cases hq : q a = true
      · rw [List.filter_cons, if_pos hq, List.find?_cons_of_neg _ (by simp [hp]),
          List.find?_cons_of_neg _ (by simp [hp]), ih]
      · rw [List.filter_cons, if_neg (by simp [hq]),
          List.find?_cons_of_neg _ (by simp [hp]), ih]

theorem find?_filter_of_excl {α} (p q : α → Bool) (l : List α)
    (h : ∀ x, p x = true → q x = false) : (l.filter q).find? p = none := by
  induction l with
  | nil => rfl
  | cons a as ih =>
    by_cases hp : p a = true
    · rw [List.filter_cons, if_neg (by simp [h a hp]), ih]
    · by_cases hq : q a = true
      · rw [List.filter_cons, if_pos hq, List.find?_cons_of_neg _ (by simp [hp]), ih]
      · rw [List.filter_cons, if_neg (by simp [hq]), ih]

theorem redisSet_ok {st : RedisState} {k v : String} {ttl : Int} {st' : RedisState}
    (h : redisSet st k v ttl = .ok st') :
    k ∉ st.failKeys ∧
    st' = { st with data := (k, v) :: st.data.filter (fun p => p.1 ≠ k) } := by
  unfold redisSet at h
  split at h
  · exact absurd h (by simp)
  · exact ⟨by assumption, by injection h with h2; exact h2.symm⟩

theorem lookup_cons_self (st : List (String × String)) (fk : List String)
    (k v : String) :
    RedisState.lookup ⟨(k, v) :: st, fk⟩ k = some v := by
  unfold RedisState.lookup
  rw [show (⟨(k, v) :: st, fk⟩ : RedisState).data = (k, v) :: st from rfl]
  rw [List.find?_cons_of_pos _ (by simp)]
  rfl

theorem lookup_cons_other (st : List (String × String)) (fk : List String)
    (k v k' : String) (hne : k' ≠ k) :
    RedisState.lookup ⟨(k, v) :: st, fk⟩ k' = RedisState.lookup ⟨st, fk⟩ k' := by
  unfold RedisState.lookup
  rw [show (⟨(k, v) :: st, fk⟩ : RedisState).data = (k, v) :: st from rfl]
  rw [List.find?_cons_of_neg _ (by simp [hne.symm])]

theorem lookup_filter_ne (st : List (String × String)) (fk : List String)
    (k k' : String) (hne : k' ≠ k) :
    RedisState.lookup ⟨st.filter (fun p => p.1 ≠ k), fk⟩ k'
      = RedisState.lookup ⟨st, fk⟩ k' := by
  unfold RedisState.lookup
  rw [find?_filter_of_imp]
  intro x hx
  simp only [decide_eq_true_eq] at hx
  simp [hx, hne]

/-- The state after a successful `redisSet`: the written key reads back the
value, every other key is unchanged, and the failure set is unchanged. -/
theorem redisSet_ok_lookup {st : RedisState} {k v : String} {ttl : Int}
    {st' : RedisState} (h : redisSet st k v ttl = .ok st') :
    st'.lookup k = some v ∧
    (∀ k', k' ≠ k → st'.lookup k' = st.lookup k') ∧
    st'.failKeys = st.failKeys := by
  obtain ⟨hfk, rfl⟩ := redisSet_ok h
  refine ⟨lookup_cons_self _ _ _ _, fun k' hne => ?_, rfl⟩
  rw [lookup_cons_other _ _ _ _ _ hne, lookup_filter_ne _ _ _ _ hne]

/-! ## Arithmetic of second-precision timestamps -/

theorem fdiv_add_mul_thousand_lt {now : Nat} {e : Int} (he : 1000 ≤ e) :
    (now : Int) < ((now : Int) + e).fdiv 1000 * 1000 := by
  rw [Int.fdiv_eq_ediv _ (by norm_num)]
  omega

theorem fdiv_mul_thousand_le (now : Nat) :
    ((now : Int)).fdiv 1000 * 1000 ≤ (now : Int) := by
  rw [Int.fdiv_eq_ediv _ (by norm_num)]
  omega

/-! ## Characterizations of the token-manager operations -/

theorem parse_ok_decode {secret tok : String} {now : Nat} {c : Claims}
    (h : parseWithClaims secret tok now = .ok c) :
    decClaims tok.data = some (c, '.' :: macSig secret (encClaims c)) := by
  unfold parseWithClaims at h
  split at h
  · exact absurd h (by simp)
  · next c' rest' heq =>
    split at h
    · exact absurd h (by simp)
    · next hsig =>
      rw [not_not] at hsig
      split at h
      · exact absurd h (by simp)
      · split at h
        · exact absurd h (by simp)
        · split at h
          · exact absurd h (by simp)
          · injection h with h
            subst h
            rw [heq, hsig]

theorem parse_ok_claims_eq {secret tok : String} {now1 now2 : Nat} {c1 c2 : Claims}
    (h1 : parseWithClaims secret tok now1 = .ok c1)
    (h2 : parseWithClaims secret tok now2 = .ok c2) : c1 = c2 := by
  have d1 := parse_ok_decode h1
  have d2 := parse_ok_decode h2
  rw [d1] at d2
  injection d2 with d2
  exact congrArg Prod.fst d2

theorem redisGet_ok {st : RedisState} {k v : String} (h : redisGet st k = .ok v) :
    k ∉ st.failKeys ∧ st.lookup k = some v := by
  unfold redisGet at h
  split at h
  · exact absurd h (by simp)
  · next hfk =>
    refine ⟨hfk, ?_⟩
    split at h
    · next w hw =>
      injection h with h
      rw [hw, h]
    · exact absurd h (by simp)

theorem validateToken_ok_elim {tm : TokenManager} {st : RedisState} {now : Nat}
    {tok : String} {ty : TokenType} {c : Claims}
    (h : tm.ValidateToken st now tok ty = .ok c) :
    parseWithClaims tm.secretKey tok now = .ok c ∧ c.subject = ty.toStr ∧
    (ty = .refresh →
      st.lookup (refreshTokenPrefixStr ++ c.userID) = some tok ∧
      (refreshTokenPrefixStr ++ c.userID) ∉ st.failKeys) := by
  unfold TokenManager.ValidateToken at h
  split at h
  · exact absurd h (by simp)
  · exact absurd h (by simp)
  · next =>
    split at h
    · exact absurd h (by simp)
    · next claims hp =>
      split at h
      · exact absurd h (by simp)
      · next hsub =>
        rw [not_not] at hsub
        split at h
        · next hty =>
          subst hty
          split at h
          · exact absurd h (by simp)
          · next hver =>
            injection h with h
            subst h
            refine ⟨hp, hsub, fun _ => ?_⟩
            unfold TokenManager.verifyRefreshTokenInRedis at hver
            rw [goSprintf_ss] at hver
            split at hver
            · exact absurd hver (by simp)
            · next tokenInRedis hget =>
              split at hver
              · exact absurd hver (by simp)
              · next hne =>
                rw [not_not] at hne
                obtain ⟨hfk, hlk⟩ := redisGet_ok hget
                subst hne
                exact ⟨hlk, hfk⟩
        · next hty =>
          injection h with h
          subst h
          exact ⟨hp, hsub, fun hr => absurd hr hty⟩

theorem generateTokenPair_ok_elim {tm : TokenManager} {st : RedisState}
    {nowA nowR : Nat} {user : User} {st' : RedisState} {pair : TokenPair}
    (h : tm.GenerateTokenPair st nowA nowR user = .ok (st', pair)) :
    pair = ⟨(tm.generateToken user .access tm.config.expiration nowA).1,
            (tm.generateToken user .refresh tm.config.refreshExpiration nowR).1⟩ ∧
    st'.failKeys = st.failKeys ∧
    st'.lookup (refreshTokenPrefixStr ++ user.id) = some pair.refresh ∧
    (refreshTokenPrefixStr ++ user.id) ∉ st.failKeys ∧
    (∀ k, k ≠ refreshTokenPrefixStr ++ user.id →
      k ≠ accessTokenPrefixStr ++ user.id → st'.lookup k = st.lookup k) := by
  simp only [TokenManager.GenerateTokenPair, goSprintf_ss] at h
  split at h
  · exact absurd h (by simp)
  · next st1 hset1 =>
    split at h
    · exact absurd h (by simp)
    · next st2 hset2 =>
      injection h with h
      injection h with h hpair
      subst h
      subst hpair
      obtain ⟨hl1, ho1, hf1⟩ := redisSet_ok_lookup hset1
      obtain ⟨hl2, ho2, hf2⟩ := redisSet_ok_lookup hset2
      obtain ⟨hnf1, _⟩ := redisSet_ok hset1
      refine ⟨rfl, by rw [hf2, hf1], ?_, hnf1, ?_⟩
      · rw [ho2 _ (access_ne_refresh_key user.id user.id).symm]
        exact hl1
      · intro k hk1 hk2
        rw [ho2 k hk2, ho1 k hk1]

theorem parse_ok_temporal {secret tok : String} {now : Nat} {c : Claims}
    (h : parseWithClaims secret tok now = .ok c) :
    (now : Int) < c.expiresAt * 1000 ∧ c.notBefore * 1000 ≤ (now : Int) ∧
      c.issuedAt * 1000 ≤ (now : Int) := by
  unfold parseWithClaims at h
  split at h
  · exact absurd h (by simp)
  · next c' rest' heq =>
    split at h
    · exact absurd h (by simp)
    · split at h
      · exact absurd h (by simp)
      · next hexp =>
        split at h
        · exact absurd h (by simp)
        · next hnbf =>
          split at h
          · exact absurd h (by simp)
          · next hiat =>
            rw [not_not] at hexp hnbf hiat
            injection h with h
            subst h
            exact ⟨hexp, hnbf, hiat⟩

theorem isTokenBlacklisted_none {st : RedisState} {tok : String}
    (h1 : "blacklist:" ++ tok ∉ st.failKeys)
    (h2 : st.lookup ("blacklist:" ++ tok) = none) :
    TokenManager.isTokenBlacklisted st tok = .ok false := by
  unfold TokenManager.isTokenBlacklisted redisExists
  rw [goSprintf_blacklist, if_neg h1, h2]
  rfl

theorem verify_refresh_ok {st : RedisState} {c : Claims} {tok : String}
    (h1 : st.lookup (refreshTokenPrefixStr ++ c.userID) = some tok)
    (h2 : (refreshTokenPrefixStr ++ c.userID) ∉ st.failKeys) :
    TokenManager.verifyRefreshTokenInRedis st c tok = .ok () := by
  unfold TokenManager.verifyRefreshTokenInRedis redisGet
  rw [goSprintf_ss, if_neg h2, h1]
  simp only []
  rw [if_neg (fun hh => hh rfl)]

theorem validate_ok_intro {tm : TokenManager} {st : RedisState} {now : Nat}
    {c : Claims} {ty : TokenType}
    (hb1 : "blacklist:" ++ signedString tm.secretKey c ∉ st.failKeys)
    (hb2 : st.lookup ("blacklist:" ++ signedString tm.secretKey c) = none)
    (hexp : (now : Int) < c.expiresAt * 1000)
    (hnbf : c.notBefore * 1000 ≤ (now : Int))
    (hiat : c.issuedAt * 1000 ≤ (now : Int))
    (hsub : c.subject = ty.toStr)
    (href : ty = .refresh →
      st.lookup (refreshTokenPrefixStr ++ c.userID) = some (signedString tm.secretKey c) ∧
      (refreshTokenPrefixStr ++ c.userID) ∉ st.failKeys) :
    tm.ValidateToken st now (signedString tm.secretKey c) ty = .ok c := by
  unfold TokenManager.ValidateToken
  rw [isTokenBlacklisted_none hb1 hb2, parse_signedString hexp hnbf hiat]
  simp only []
  rw [hsub, if_neg (fun hh => hh rfl)]
  cases ty with
  | access => rw [if_neg (by decide)]
  | refresh =>
    rw [if_pos rfl, verify_refresh_ok (href rfl).1 (href rfl).2]

/-! ## Logout behaviour -/

theorem lookup_del_mem (data : List (String × String)) (fk ks : List String)
    (k : String) (hk : k ∈ ks) :
    RedisState.lookup ⟨data.filter (fun p => p.1 ∉ ks), fk⟩ k = none := by
  unfold RedisState.lookup
  rw [show (⟨data.filter (fun p => p.1 ∉ ks), fk⟩ : RedisState).data
      = data.filter (fun p => p.1 ∉ ks) from rfl]
  rw [find?_filter_of_excl]
  · rfl
  · intro x hx
    simp only [decide_eq_true_eq] at hx
    simp [hx, hk]

theorem filter_not_mem_idem (data : List (String × String)) (ks : List String) :
    (data.filter (fun p => p.1 ∉ ks)).filter (fun p => p.1 ∉ ks)
      = data.filter (fun p => p.1 ∉ ks) := by
  rw [List.filter_filter]
  apply List.filter_congr
  intro x _
  rw [Bool.and_self]

/-- `Logout` succeeds exactly when the final two-key delete can reach the
store; a failing blacklist write (or a failing read of the stored refresh
token) is silently ignored. -/
theorem logout_ok_iff (tm : TokenManager) (st : RedisState) (uid : String) :
    exceptOk (TokenManager.Logout tm st uid) = true ↔
      ((refreshTokenPrefixStr ++ uid) ∉ st.failKeys ∧
       (accessTokenPrefixStr ++ uid) ∉ st.failKeys) := by
  unfold TokenManager.Logout
  have hfail : ∀ stA : RedisState, stA.failKeys = st.failKeys →
      (exceptOk (match redisDel stA
        [refreshTokenPrefixStr ++ uid, accessTokenPrefixStr ++ uid] with
        | .ok (st2, _) => (.ok st2 : Except String RedisState)
        | .error e => .error e) = true ↔
      ((refreshTokenPrefixStr ++ uid) ∉ st.failKeys ∧
       (accessTokenPrefixStr ++ uid) ∉ st.failKeys)) := by
    intro stA hA
    unfold redisDel
    rw [show ([refreshTokenPrefixStr ++ uid, accessTokenPrefixStr ++ uid].any
        (fun k => k ∈ stA.failKeys))
        = ((refreshTokenPrefixStr ++ uid ∈ st.failKeys : Bool) ||
           (accessTokenPrefixStr ++ uid ∈ st.failKeys : Bool)) from by
      simp [hA]]
    by_cases h1 : (refreshTokenPrefixStr ++ uid) ∈ st.failKeys
    · rw [if_pos (by simp [h1])]
      simp [exceptOk, h1]
    · by_cases h2 : (accessTokenPrefixStr ++ uid) ∈ st.failKeys
      · rw [if_pos (by simp [h1, h2])]
        simp [exceptOk, h1, h2]
      · rw [if_neg (by simp [h1, h2])]
        simp [exceptOk, h1, h2]
  split
  · next tok hget =>
    split
    · next st1 hset =>
      obtain ⟨_, rfl⟩ := redisSet_ok hset
      exact hfail _ rfl
    · exact hfail st rfl
  · exact hfail st rfl

/-- A successful `Logout` is idempotent: running it again from the resulting
state succeeds and leaves the state unchanged (in particular it performs no
blacklist write: nothing is stored for the subject any more). -/
theorem logout_idem {tm : TokenManager} {st : RedisState} {uid : String}
    {st' : RedisState} (h : TokenManager.Logout tm st uid = .ok st') :
    TokenManager.Logout tm st' uid = .ok st' := by
  have hshape : ∃ data : List (String × String),
      st' = ⟨data.filter (fun p =>
        p.1 ∉ [refreshTokenPrefixStr ++ uid, accessTokenPrefixStr ++ uid]), st.failKeys⟩ ∧
      (refreshTokenPrefixStr ++ uid) ∉ st.failKeys ∧
      (accessTokenPrefixStr ++ uid) ∉ st.failKeys := by
    unfold TokenManager.Logout at h
    have hdel : ∀ stA : RedisState, stA.failKeys = st.failKeys →
        (match redisDel stA
          [refreshTokenPrefixStr ++ uid, accessTokenPrefixStr ++ uid] with
          | .ok (st2, _) => (.ok st2 : Except String RedisState)
          | .error e => .error e) = .ok st' →
        ∃ data : List (String × String),
          st' = ⟨data.filter (fun p =>
            p.1 ∉ [refreshTokenPrefixStr ++ uid, accessTokenPrefixStr ++ uid]),
            st.failKeys⟩ ∧
          (refreshTokenPrefixStr ++ uid) ∉ st.failKeys ∧
          (accessTokenPrefixStr ++ uid) ∉ st.failKeys := by
      intro stA hA hm
      split at hm
      · next st2 snd heq =>
        injection hm with hm
        unfold redisDel at heq
        split at heq
        · exact absurd heq (by simp)
        · next hnotany =>
          injection heq with heq
          injection heq with heq1 heq2
          refine ⟨stA.data, ?_, ?_, ?_⟩
          · rw [← hm, ← heq1, hA]
          · intro hmem
            exact hnotany (by simp [hA, hmem])
          · intro hmem
            exact hnotany (by simp [hA, hmem])
      · exact absurd hm (by simp)
    simp only [] at h
    rcases hget : redisGet st (refreshTokenPrefixStr ++ uid) with e | tok
    · rw [hget] at h
      simp only [] at h
      exact hdel st rfl h
    · rw [hget] at h
      simp only [] at h
      rcases hset : redisSet st (blacklistPrefixStr ++ tok) "1"
          tm.config.refreshExpiration with e | st1
      · rw [hset] at h
        simp only [] at h
        exact hdel st rfl h
      · rw [hset] at h
        simp only [] at h
        obtain ⟨_, rfl⟩ := redisSet_ok hset
        exact hdel ⟨(blacklistPrefixStr ++ tok, "1") ::
          st.data.filter (fun p => p.1 ≠ blacklistPrefixStr ++ tok),
          st.failKeys⟩ rfl h
  obtain ⟨data, rfl, hr, ha⟩ := hshape
  unfold TokenManager.Logout
  rw [show redisGet ⟨data.filter (fun p =>
      p.1 ∉ [refreshTokenPrefixStr ++ uid, accessTokenPrefixStr ++ uid]),
      st.failKeys⟩ (refreshTokenPrefixStr ++ uid) = .error "redis: nil" from by
    unfold redisGet
    rw [if_neg hr, lookup_del_mem _ _ _ _ (by simp)]]
  simp only []
  unfold redisDel
  rw [if_neg (by simp [hr, ha])]
  simp only []
  rw [filter_not_mem_idem]

/-! ## Token generation identities -/

theorem generateToken_eq (tm : TokenManager) (user : User) (ty : TokenType)
    (e : Int) (now : Nat) :
    tm.generateToken user ty e now =
      (signedString tm.secretKey
        { userID := user.id, email := user.email,
          expiresAt := ((now : Int) + e).fdiv 1000,
          issuedAt := ((now : Int)).fdiv 1000,
          notBefore := ((now : Int)).fdiv 1000,
          issuer := "todolistapi", subject := ty.toStr },
       { userID := user.id, email := user.email,
         expiresAt := ((now : Int) + e).fdiv 1000,
         issuedAt := ((now : Int)).fdiv 1000,
         notBefore := ((now : Int)).fdiv 1000,
         issuer := "todolistapi", subject := ty.toStr }) := rfl

theorem generateToken_second_granular (tm : TokenManager) (user : User)
    (ty : TokenType) (e : Int) (n1 n2 : Nat)
    (hsec : n1 / 1000 = n2 / 1000) (he : e % 1000 = 0) :
    tm.generateToken user ty e n1 = tm.generateToken user ty e n2 := by
  have h1 : ((n1 : Int)).fdiv 1000 = ((n2 : Int)).fdiv 1000 := by
    rw [Int.fdiv_eq_ediv _ (by norm_num), Int.fdiv_eq_ediv _ (by norm_num)]
    omega
  have h2 : ((n1 : Int) + e).fdiv 1000 = ((n2 : Int) + e).fdiv 1000 := by
    rw [Int.fdiv_eq_ediv _ (by norm_num), Int.fdiv_eq_ediv _ (by norm_num)]
    omega
  rw [generateToken_eq, generateToken_eq, h1, h2]

/-! ## The claims -/

/-- C1: the spec says that after `invalidate(t, kind, ttl)` succeeds an
immediately following `validate(t, kind)` rejects `t` as revoked — i.e.
that `InvalidateToken` and the blacklist lookup of `ValidateToken` use the
same key.  The code violates this: `InvalidateToken` writes the entry under
`"blacklist:%s" ++ t` (plain concatenation with the format-verb constant)
while the check reads `fmt.Sprintf("blacklist:%s", t) = "blacklist:" ++ t`,
so a freshly invalidated, otherwise valid token still validates
successfully. -/
theorem C1_invalidate_not_seen_by_validate :
    tmEx.InvalidateToken stEmpty tokEx .access 5000 = .ok stInvEx ∧
    tmEx.ValidateToken stInvEx 0 tokEx .access = .ok claimsEx :=
  ⟨rfl, rfl⟩

/-- C2 (counterexample): the rotation-invalidation claim fails as stated.
Issuing the pair during second 0 (times 1 ms and 2 ms) and refreshing within
the same second (validation at 5 ms, generation at 7 ms and 9 ms) succeeds
and returns a refresh token string byte-identical to the old one, so the
subsequent `validate(old_refresh, REFRESH)` still succeeds. -/
theorem C2_rotation_counterexample :
    tmEx.RefreshTokenOp stPairEx 5 7 9 refreshTokEx = .ok (stPairEx, pairEx) ∧
    pairEx.refresh = refreshTokEx ∧
    tmEx.ValidateToken stPairEx 9 refreshTokEx .refresh
      = .ok (tmEx.generateToken userEx .refresh tmEx.config.refreshExpiration 2).2 :=
  ⟨rfl, rfl, rfl⟩

/-- C2 (amended): after a successful `refresh(old)` that returned a pair whose
refresh token string differs from `old`, any later `validate(old, REFRESH)`
fails, while `validate(new_refresh, REFRESH)` immediately after issuance
succeeds — provided the new token carries no unrelated pre-existing
revocation entry and the configured refresh lifetime is at least one
second. -/
theorem C2_rotation_amended {tm : TokenManager} {st : RedisState}
    {nowV nowA nowR now2 : Nat} {old : String} {st' : RedisState}
    {pair : TokenPair}
    (h1 : tm.RefreshTokenOp st nowV nowA nowR old = .ok (st', pair))
    (h2 : pair.refresh ≠ old)
    (hb1 : ("blacklist:" ++ pair.refresh) ∉ st.failKeys)
    (hb2 : st.lookup ("blacklist:" ++ pair.refresh) = none)
    (hrexp : 1000 ≤ tm.config.refreshExpiration) :
    (∀ c, tm.ValidateToken st' now2 old .refresh ≠ .ok c) ∧
    (∃ c, tm.ValidateToken st' nowR pair.refresh .refresh = .ok c) := by
  simp only [TokenManager.RefreshTokenOp] at h1
  split at h1
  · exact absurd h1 (by simp)
  · next claims0 hval =>
    obtain ⟨hpair, hfk, hlkR, hnfR, hother⟩ := generateTokenPair_ok_elim h1
    obtain ⟨hparse0, hsub0, hrefresh0⟩ := validateToken_ok_elim hval
    constructor
    · intro c hc
      obtain ⟨hparse_c, hsub_c, hr_c⟩ := validateToken_ok_elim hc
      have hceq : c = claims0 := parse_ok_claims_eq hparse_c hparse0
      subst hceq
      obtain ⟨hlk', _⟩ := hr_c rfl
      have hoo : some old = some pair.refresh := hlk'.symm.trans hlkR
      exact h2 (Option.some.inj hoo).symm
    · refine ⟨{ userID := claims0.userID,
                email := claims0.email,
                expiresAt := ((nowR : Int) + tm.config.refreshExpiration).fdiv 1000,
                issuedAt := ((nowR : Int)).fdiv 1000,
                notBefore := ((nowR : Int)).fdiv 1000,
                issuer := "todolistapi",
                subject := "refresh" }, ?_⟩
      have hpr : pair.refresh = signedString tm.secretKey
          { userID := claims0.userID,
            email := claims0.email,
            expiresAt := ((nowR : Int) + tm.config.refreshExpiration).fdiv 1000,
            issuedAt := ((nowR : Int)).fdiv 1000,
            notBefore := ((nowR : Int)).fdiv 1000,
            issuer := "todolistapi",
            subject := "refresh" } := by
        rw [hpair]
        rfl
      rw [hpr] at hb1 hb2 hlkR ⊢
      apply validate_ok_intro
      · rw [hfk]
        exact hb1
      · rw [hother _ (blacklist_ne_refresh_key _ _) (blacklist_ne_access_key _ _)]
        exact hb2
      · exact fdiv_add_mul_thousand_lt hrexp
      · exact fdiv_mul_thousand_le nowR
      · exact fdiv_mul_thousand_le nowR
      · rfl
      · intro _
        refine ⟨hlkR, ?_⟩
        rw [hfk]
        exact hnfR

/-- C3: the spec says the session keys are `access:<subject_id>` /
`refresh:<subject_id>` and revocation entries sit at
`blacklist:<token_string>`, the layout the revocation check reads.  The code
violates this: the stored keys are `"access:%d" ++ id` and
`"refresh:%d" ++ id` (the format verbs are literal), and revocation entries
are written at `"blacklist:%s" ++ token` while the revocation check reads
`"blacklist:" ++ token`, so written entries are invisible to it. -/
theorem C3_key_layout_mismatch :
    tmEx.GenerateTokenPair stEmpty 1 2 userEx = .ok (stPairEx, pairEx) ∧
    stPairEx.lookup ("refresh:" ++ userEx.id) = none ∧
    stPairEx.lookup (refreshTokenPrefixStr ++ userEx.id) = some pairEx.refresh ∧
    stPairEx.lookup ("access:" ++ userEx.id) = none ∧
    stPairEx.lookup (accessTokenPrefixStr ++ userEx.id) = some pairEx.access ∧
    tmEx.InvalidateToken stEmpty tokEx .access 5000 = .ok stInvEx ∧
    stInvEx.lookup (goSprintf blacklistPrefixStr [tokEx]) = none ∧
    stInvEx.lookup (blacklistPrefixStr ++ tokEx) = some "1" :=
  ⟨rfl, rfl, rfl, rfl, rfl, rfl, rfl, rfl⟩

/-- C4: the spec says lookup-miss and password-mismatch logins return the
same generic invalid-credentials error.  The code violates this: on a lookup
miss `GetByEmail` returns a nil user with a nil error, and `Login`
dereferences the nil user (a runtime panic); on a password mismatch it
returns the distinct error "invalid password".  The two failing runs are
observably different. -/
theorem C4_login_outcomes_distinguishable :
    AuthService.Login checkEx [] tmEx stEmpty 0 0 reqEx = .nilDeref ∧
    AuthService.Login checkEx [userEx] tmEx stEmpty 0 0 reqEx
      = .err "invalid password" ∧
    (LoginOutcome.nilDeref ≠ LoginOutcome.err "invalid password") :=
  ⟨rfl, rfl, by decide⟩

/-- C5 (counterexample): the claim that every failing store write inside
`Logout` is reported is false: in `stC5` the blacklist-entry write fails
(`redis: set failed`), yet `Logout` returns success, because the Go code
discards the error of that `Set`. -/
theorem C5_logout_counterexample :
    redisSet stC5 (blacklistPrefixStr ++ refreshTokEx) "1"
        tmEx.config.refreshExpiration = .error "redis: set failed" ∧
    TokenManager.Logout tmEx stC5 userEx.id
      = .ok ⟨[], [blacklistPrefixStr ++ refreshTokEx]⟩ :=
  ⟨rfl, rfl⟩

/-- C5 (amended): `Logout` reports exactly the failures of the final
two-key delete; a failure of the blacklist Revocation-Entry write (or of the
initial read of the stored refresh token) is silently ignored and logout
still returns success. -/
theorem C5_logout_reports_only_delete_failures (tm : TokenManager)
    (st : RedisState) (uid : String) :
    exceptOk (TokenManager.Logout tm st uid) = true ↔
      ((refreshTokenPrefixStr ++ uid) ∉ st.failKeys ∧
       (accessTokenPrefixStr ++ uid) ∉ st.failKeys) :=
  logout_ok_iff tm st uid

/-- C6: the spec says the Authentication Service's refresh passes exactly
the presented refresh token to the Session Lifecycle Manager and that its
result depends on that argument.  The code violates this: it reads the token
from the Authorization header and never consults the `refreshToken`
argument, so the result is constant in the presented token; with an empty
header it fails even when the presented token is a live refresh token. -/
theorem C6_refresh_ignores_presented_token :
    (∀ (tm : TokenManager) (st : RedisState) (nowV nowA nowR : Nat)
      (hdr t1 t2 : String),
      AuthService.RefreshToken tm st nowV nowA nowR hdr t1
        = AuthService.RefreshToken tm st nowV nowA nowR hdr t2) ∧
    AuthService.RefreshToken tmEx stPairEx 5 7 9 "" refreshTokEx
      = .error "Refresh token is required" :=
  ⟨fun _ _ _ _ _ _ _ _ => rfl, rfl⟩

/-- C7: logout is idempotent — when a first `Logout` returns success, a
second call from the resulting state also returns success, performs no
blacklist write (the stored refresh token is gone) and leaves the state
unchanged. -/
theorem C7_logout_idempotent {tm : TokenManager} {st : RedisState}
    {uid : String} {st' : RedisState}
    (h : TokenManager.Logout tm st uid = .ok st') :
    TokenManager.Logout tm st' uid = .ok st' :=
  logout_idem h

/-- C7 witness: concrete double logout for `userEx` from `stPairEx`. -/
theorem C7_logout_idempotent_witness :
    TokenManager.Logout tmEx stLoggedOutEx "u1" = .ok stLoggedOutEx :=
  C7_logout_idempotent
    (show TokenManager.Logout tmEx stPairEx "u1" = .ok stLoggedOutEx from rfl)

/-- C8: a token issued with a negative lifetime (its expiry already in the
past) is never accepted by `ValidateToken`, at any validation time and for
any requested token kind, even though its signature verifies under the
shared symmetric key. -/
theorem C8_negative_ttl_rejected {tm : TokenManager} {st : RedisState}
    {user : User} {ty ty2 : TokenType} {e : Int} {now nowv : Nat}
    (he : e < 0) :
    ∀ c, tm.ValidateToken st nowv ((tm.generateToken user ty e now).1) ty2
      ≠ .ok c := by
  intro c hc
  obtain ⟨hp, _, _⟩ := validateToken_ok_elim hc
  have hd1 := parse_ok_decode hp
  have hd2 : decClaims ((tm.generateToken user ty e now).1).data
      = some ({ userID := user.id,
                email := user.email,
                expiresAt := ((now : Int) + e).fdiv 1000,
                issuedAt := ((now : Int)).fdiv 1000,
                notBefore := ((now : Int)).fdiv 1000,
                issuer := "todolistapi",
                subject := ty.toStr },
        '.' :: macSig tm.secretKey (encClaims
          { userID := user.id,
            email := user.email,
            expiresAt := ((now : Int) + e).fdiv 1000,
            issuedAt := ((now : Int)).fdiv 1000,
            notBefore := ((now : Int)).fdiv 1000,
            issuer := "todolistapi",
            subject := ty.toStr })) :=
    decClaims_encClaims _ _
  rw [hd2] at hd1
  have hpairs := Option.some.inj hd1
  rw [Prod.mk.injEq] at hpairs
  obtain ⟨hceq, -⟩ := hpairs
  subst hceq
  obtain ⟨hlt, hnbf, _⟩ := parse_ok_temporal hp
  dsimp only [] at hlt hnbf
  rw [Int.fdiv_eq_ediv _ (by norm_num)] at hlt hnbf
  omega

/-- C8 witness: the fixture token issued with lifetime -1 ms at time 0 is
rejected at validation time 0. -/
theorem C8_negative_ttl_rejected_witness :
    ((-1 : Int) < 0) ∧
    ∀ c, tmEx.ValidateToken stEmpty 0
      ((tmEx.generateToken userEx .access (-1) 0).1) .access ≠ .ok c :=
  ⟨by norm_num, C8_negative_ttl_rejected (by norm_num)⟩

/-- C2 witness: a refresh whose token generation happens in later seconds
(times 1007 and 2009 ms) produces a distinct refresh token; the amended
rotation property holds there. -/
theorem C2_rotation_amended_witness :
    (∀ c, tmEx.ValidateToken stPairB 99 refreshTokEx .refresh ≠ .ok c) ∧
    (∃ c, tmEx.ValidateToken stPairB 2009 pairB.refresh .refresh = .ok c) :=
  @C2_rotation_amended tmEx stPairEx 5 1007 2009 99 refreshTokEx stPairB pairB
    rfl (by decide) (by decide) rfl (by decide)

/-- C9 (counterexample): the round-trip claim fails for an arbitrary positive
ttl: a token issued with ttl = 1 ms at time 0 is already expired at its own
issuance instant (its second-precision `exp` equals its `iat`), so
`parse_and_verify` rejects it even though the signature is valid. -/
theorem C9_roundtrip_counterexample :
    ((0 : Int) < 1) ∧
    tmEx.ValidateToken stEmpty 0 ((tmEx.generateToken userEx .access 1 0).1)
        .access = .error "invalid token: token is expired" :=
  ⟨by norm_num, rfl⟩

/-- C9 (amended): for every subject and every ttl of at least one second, a
freshly issued, non-blacklisted ACCESS token parses and validates at its
issuance time, returning claims whose `userID` is the subject's id, whose
kind is ACCESS, with `not_before = issued_at = ⌊now⌋`, and
`expires_at = ⌊now + ttl⌋` (second-precision floors). -/
theorem C9_roundtrip_amended {tm : TokenManager} {st : RedisState}
    {user : User} {ttl : Int} {now : Nat}
    (httl : 1000 ≤ ttl)
    (hb1 : ("blacklist:" ++ (tm.generateToken user .access ttl now).1) ∉ st.failKeys)
    (hb2 : st.lookup ("blacklist:" ++ (tm.generateToken user .access ttl now).1) = none) :
    tm.ValidateToken st now ((tm.generateToken user .access ttl now).1) .access
      = .ok ((tm.generateToken user .access ttl now).2) ∧
    ((tm.generateToken user .access ttl now).2).userID = user.id ∧
    ((tm.generateToken user .access ttl now).2).email = user.email ∧
    ((tm.generateToken user .access ttl now).2).subject = TokenType.access.toStr ∧
    ((tm.generateToken user .access ttl now).2).notBefore
      = ((tm.generateToken user .access ttl now).2).issuedAt ∧
    ((tm.generateToken user .access ttl now).2).issuedAt = ((now : Int)).fdiv 1000 ∧
    ((tm.generateToken user .access ttl now).2).expiresAt
      = ((now : Int) + ttl).fdiv 1000 := by
  refine ⟨?_, rfl, rfl, rfl, rfl, rfl, rfl⟩
  exact validate_ok_intro hb1 hb2 (fdiv_add_mul_thousand_lt httl)
    (fdiv_mul_thousand_le now) (fdiv_mul_thousand_le now) rfl
    (fun hr => absurd hr (by decide))

/-- C9 witness: the amended round-trip at `tmEx`, `userEx`, ttl 1000 ms,
time 0, empty store. -/
theorem C9_roundtrip_amended_witness :
    ((1000 : Int) ≤ 1000) ∧
    tmEx.ValidateToken stEmpty 0 ((tmEx.generateToken userEx .access 1000 0).1)
        .access = .ok ((tmEx.generateToken userEx .access 1000 0).2) :=
  ⟨by norm_num,
    (@C9_roundtrip_amended tmEx stEmpty userEx 1000 0 (by norm_num) (by decide) rfl).1⟩

/-- C10: token issuance is deterministic at one-second granularity — for a
fixed subject, kind and whole-second lifetime, two generations whose clock
readings fall in the same second produce byte-identical token strings — and
consequently a refresh executed in the same second as the original issuance
(fixture: issue at 1/2 ms, refresh at 5/7/9 ms) returns a refresh token
string equal to the old one. -/
theorem C10_second_granularity :
    (∀ (tm : TokenManager) (user : User) (ty : TokenType) (e : Int)
      (n1 n2 : Nat), n1 / 1000 = n2 / 1000 → e % 1000 = 0 →
      tm.generateToken user ty e n1 = tm.generateToken user ty e n2) ∧
    (tmEx.RefreshTokenOp stPairEx 5 7 9 refreshTokEx = .ok (stPairEx, pairEx) ∧
     pairEx.refresh = refreshTokEx) :=
  ⟨generateToken_second_granular, rfl, rfl⟩

/-- C10 witness: two generations at 3 ms and 999 ms (same second) with the
2000 ms refresh lifetime are identical. -/
theorem C10_second_granularity_witness :
    (3 / 1000 = 999 / 1000) ∧ ((2000 : Int) % 1000 = 0) ∧
    tmEx.generateToken userEx .refresh 2000 3
      = tmEx.generateToken userEx .refresh 2000 999 :=
  ⟨by norm_num, by norm_num,
    C10_second_granularity.1 tmEx userEx .refresh 2000 3 999
      (by norm_num) (by norm_num)⟩

end EcomJwt
